import Mathlib

/-!
Shallow embedding of the WebRTC signaling test harness (the `WebRtcTest`
React component, second revision in the repository's README).  The mutable
refs and React state of the component become an explicit `ClientState`
record; each handler becomes a function from state (plus the decoded
message) to a new state together with the list of peer-connection
primitive operations it performed, the list of bus messages it published,
and whether the async handler rejected (an uncaught `await` failure).
The peer-connection primitive (RTCPeerConnection) is external: its
success/failure behaviour and produced SDP values are supplied by a
`PcOracle` parameter.
-/

/-- Operations invoked on the peer-connection / data-channel primitive,
recorded in call order. -/
inductive PcOp where
  | newPc
  | createDataChannel
  | setRemoteDescription (sdp : String)
  | addIceCandidate (cand : String)
  | createAnswer
  | createOffer
  | setLocalDescription (sdp : String)
  | closeDataChannel
  | closePc
  deriving DecidableEq, Repr

/-- Messages published to the STOMP bus via `send` (destination is implied
by the constructor: `/app/call.accept`, `/app/call.reject`, `/app/call.end`,
`/app/webrtc.offer`, `/app/webrtc.answer`, `/app/webrtc.ice`). -/
inductive Publish where
  | callAccept (callId : String)
  | callReject (callId reason : String)
  | callEnd (callId : String)
  | offerMsg (callId fromUserId toUserId sdp : String)
  | answerMsg (callId fromUserId toUserId sdp : String)
  | iceMsg (callId fromUserId toUserId cand : String)
  deriving DecidableEq, Repr

/-- A decoded inbound signal message (the `SigMsg` tagged union): OFFER and
ANSWER carry an SDP, ICE_CANDIDATE carries a candidate, and any other
`type` still carries a `callId`. -/
inductive SigMsg where
  | offer (callId fromUserId toUserId sdp : String)
  | answer (callId fromUserId toUserId sdp : String)
  | iceCandidate (callId fromUserId toUserId cand : String)
  | other (type callId : String)
  deriving DecidableEq, Repr

/-- The `callId` field common to every `SigMsg` variant. -/
def SigMsg.callId : SigMsg → String
  | .offer cid _ _ _ => cid
  | .answer cid _ _ _ => cid
  | .iceCandidate cid _ _ _ => cid
  | .other _ cid => cid

/-- A decoded inbound call notification (fields the handler reads; absent
JSON fields are `none`). -/
structure NotifMsg where
  type : String
  callId : Option String
  otherParticipant : Option String
  callerId : Option String
  recipientId : Option String
  deriving DecidableEq, Repr

/-- The component's mutable state: React state (`me`, `peerUsername`,
`callId`, `log`) and refs (`pcRef`/`dcRef` tracked as presence booleans,
`hasRemoteRef`, `pendingIceRef`). -/
structure ClientState where
  me : String
  peerUsername : String
  callId : String
  pcPresent : Bool
  dcPresent : Bool
  hasRemote : Bool
  pendingIce : List String
  log : List String
  deriving DecidableEq, Repr

/-- Behaviour of the external peer-connection primitive: which operations
fail (reject) and which SDP values `createOffer`/`createAnswer` produce. -/
structure PcOracle where
  remoteFails : String → Bool
  createAnswerFails : Bool
  answerSdp : String
  createOfferFails : Bool
  offerSdp : String
  localFails : String → Bool
  candidateFails : String → Bool

/-- Result of one handler invocation: the new state, the peer-connection
operations attempted (in order), the bus messages published, and whether
the async handler rejected with an uncaught error. -/
structure Step where
  state : ClientState
  ops : List PcOp
  outs : List Publish
  threw : Bool
  deriving DecidableEq, Repr

/-- `logLine`: append a line to the log pane. -/
def logLine (st : ClientState) (s : String) : ClientState :=
  { st with log := st.log ++ [s] }

/-- `ensurePc(isCaller)`: return the existing peer connection or create a
fresh one; the caller additionally creates the data channel. -/
def ensurePc (isCaller : Bool) (st : ClientState) : ClientState × List PcOp :=
  if st.pcPresent then (st, [])
  else if isCaller then
    ({ st with pcPresent := true, dcPresent := true },
     [PcOp.newPc, PcOp.createDataChannel])
  else
    ({ st with pcPresent := true }, [PcOp.newPc])

/-- The log lines produced by the `drainIce` loop: one per candidate whose
`addIceCandidate` rejects (the error is caught and logged per candidate). -/
def drainLoop (o : PcOracle) : List String → List String
  | [] => []
  | c :: q =>
      (if o.candidateFails c then ["drain addIce error " ++ c] else [])
        ++ drainLoop o q

/-- `drainIce(pc)`: splice the whole pending buffer and attempt to apply
every candidate in order, logging (and swallowing) per-candidate errors. -/
def drainIce (o : PcOracle) (st : ClientState) : ClientState × List PcOp :=
  ({ st with pendingIce := [],
             log := st.log ++ drainLoop o st.pendingIce },
   st.pendingIce.map PcOp.addIceCandidate)

/-- `onSignal`: the webrtc-signals subscription handler, applied to the
already-parsed payload (`none` when `safeParse` returned null).  Mirrors
the source: discard on null payload or callId mismatch; OFFER sets the
remote description, marks remote-ready, drains the buffer, creates and
applies an answer, then publishes it (unless the peer username is
unknown); ANSWER sets the remote description, marks remote-ready and
drains; ICE_CANDIDATE buffers before remote-ready, otherwise applies with
a per-candidate try/catch.  An `await` failure outside any try/catch
aborts the handler with `threw = true`. -/
def onSignal (o : PcOracle) (st : ClientState) (payload : Option SigMsg) : Step :=
  match payload with
  | none => ⟨st, [], [], false⟩
  | some p =>
    if p.callId ≠ st.callId then ⟨st, [], [], false⟩
    else
      match p with
      | SigMsg.offer _ _ _ sdp =>
        let e := ensurePc false st
        let ops2 := e.2 ++ [PcOp.setRemoteDescription sdp]
        if o.remoteFails sdp then ⟨e.1, ops2, [], true⟩
        else
          let st2 := { e.1 with hasRemote := true }
          let d := drainIce o st2
          let ops3 := ops2 ++ d.2 ++ [PcOp.createAnswer]
          if o.createAnswerFails then ⟨d.1, ops3, [], true⟩
          else
            let ops4 := ops3 ++ [PcOp.setLocalDescription o.answerSdp]
            if o.localFails o.answerSdp then ⟨d.1, ops4, [], true⟩
            else if d.1.peerUsername = "" then
              ⟨logLine d.1 "Cannot reply with ANSWER because peer username is unknown.",
               ops4, [], false⟩
            else
              ⟨logLine d.1 "ANSWER sent", ops4,
               [Publish.answerMsg d.1.callId d.1.me d.1.peerUsername o.answerSdp],
               false⟩
      | SigMsg.answer _ _ _ sdp =>
        let e := ensurePc false st
        let ops2 := e.2 ++ [PcOp.setRemoteDescription sdp]
        if o.remoteFails sdp then ⟨e.1, ops2, [], true⟩
        else
          let st2 := { e.1 with hasRemote := true }
          let d := drainIce o st2
          ⟨logLine d.1 "ANSWER set", ops2 ++ d.2, [], false⟩
      | SigMsg.iceCandidate _ _ _ cand =>
        let e := ensurePc false st
        if e.1.hasRemote then
          let st2 :=
            if o.candidateFails cand then logLine e.1 ("addIce error " ++ cand)
            else e.1
          ⟨st2, e.2 ++ [PcOp.addIceCandidate cand], [], false⟩
        else
          ⟨{ e.1 with pendingIce := e.1.pendingIce ++ [cand] }, e.2, [], false⟩
      | SigMsg.other _ _ => ⟨st, [], [], false⟩

/-- `onCallNotif`: the call-notifications subscription handler, applied to
the already-parsed payload.  A truthy `callId` overwrites the active call
id; a peer identity is derived from `otherParticipant`, `callerId` and
`recipientId` and stored if it is a truthy string; then the notification
is logged. -/
def onCallNotif (st : ClientState) (payload : Option NotifMsg) : ClientState :=
  match payload with
  | none => st
  | some p =>
    let st1 :=
      match p.callId with
      | some c => if c ≠ "" then { st with callId := c } else st
      | none => st
    let mid : Option String :=
      if p.callerId = some st.me then p.recipientId else p.callerId
    let other : Option String :=
      ((p.otherParticipant.orElse (fun _ => mid)).orElse
        (fun _ => p.callerId)).orElse (fun _ => p.recipientId)
    let st2 :=
      match other with
      | some u => if u ≠ "" then { st1 with peerUsername := u } else st1
      | none => st1
    logLine st2 ("CALL NOTIF: " ++ p.type ++ " " ++ p.callId.getD "")

/-- `safeParse(s)`: returns null for an absent or empty body, otherwise
`JSON.parse` which yields `none` when the body is not valid JSON (the
thrown error is caught).  The parse function itself is a parameter. -/
def safeParse {α : Type} (parse : String → Option α) :
    Option String → Option α
  | none => none
  | some s => if s = "" then none else parse s

/-- `onSignal` as invoked on a raw bus frame body. -/
def onSignalWire (parse : String → Option SigMsg) (o : PcOracle)
    (st : ClientState) (body : Option String) : Step :=
  onSignal o st (safeParse parse body)

/-- `onCallNotif` as invoked on a raw bus frame body. -/
def onCallNotifWire (parse : String → Option NotifMsg)
    (st : ClientState) (body : Option String) : ClientState :=
  onCallNotif st (safeParse parse body)

/-- `accept`: publishes a call.accept command for the current callId.
The source performs no status validation of any kind. -/
def accept (st : ClientState) : ClientState × List Publish :=
  (st, [Publish.callAccept st.callId])

/-- `reject`: publishes a call.reject command with reason busy. -/
def reject (st : ClientState) : ClientState × List Publish :=
  (st, [Publish.callReject st.callId "busy"])

/-- `teardownPc`: close the data channel and peer connection if present
(each close wrapped in try/catch), null the refs, reset the remote-ready
flag and clear the ICE buffer. -/
def teardownPc (st : ClientState) : ClientState × List PcOp :=
  ({ st with dcPresent := false, pcPresent := false,
             hasRemote := false, pendingIce := [] },
   (if st.dcPresent then [PcOp.closeDataChannel] else [])
     ++ (if st.pcPresent then [PcOp.closePc] else []))

/-- `end`: publish a call.end command for the current callId, then tear
down the peer connection.  (Named `endCall` because `end` is reserved.) -/
def endCall (st : ClientState) : Step :=
  let t := teardownPc st
  ⟨t.1, t.2, [Publish.callEnd st.callId], false⟩

/-- `startOffer`: guarded by callId and peer username being known; creates
the peer connection as caller, creates and applies a local offer and
publishes it. -/
def startOffer (o : PcOracle) (st : ClientState) : Step :=
  if st.callId = "" then
    ⟨logLine st "Set callId before sending an OFFER.", [], [], false⟩
  else if st.peerUsername = "" then
    ⟨logLine st "Set peer username (phone) before sending an OFFER.", [], [], false⟩
  else
    let e := ensurePc true st
    let ops2 := e.2 ++ [PcOp.createOffer]
    if o.createOfferFails then ⟨e.1, ops2, [], true⟩
    else
      let ops3 := ops2 ++ [PcOp.setLocalDescription o.offerSdp]
      if o.localFails o.offerSdp then ⟨e.1, ops3, [], true⟩
      else
        ⟨logLine e.1 "OFFER sent", ops3,
         [Publish.offerMsg e.1.callId e.1.me e.1.peerUsername o.offerSdp],
         false⟩

/-- Process a list of inbound signal messages, one handler invocation per
message, concatenating the operation and publish traces. -/
def runSignals (o : PcOracle) : ClientState → List SigMsg →
    ClientState × List PcOp × List Publish
  | st, [] => (st, [], [])
  | st, m :: ms =>
    let s := onSignal o st (some m)
    let r := runSignals o s.state ms
    (r.1, s.ops ++ r.2.1, s.outs ++ r.2.2)

/-- A list of ICE_CANDIDATE messages for one call, one per candidate. -/
def iceList (cid f t : String) (cs : List String) : List SigMsg :=
  cs.map (fun c => SigMsg.iceCandidate cid f t c)

/-- An oracle on which every primitive operation succeeds. -/
def oracleOk : PcOracle :=
  ⟨fun _ => false, false, "answer-sdp", false, "offer-sdp",
   fun _ => false, fun _ => false⟩

/-- An oracle on which setting a remote description always fails. -/
def oracleRemoteFail : PcOracle :=
  ⟨fun _ => true, false, "answer-sdp", false, "offer-sdp",
   fun _ => false, fun _ => false⟩

/-- An oracle on which createAnswer fails. -/
def oracleAnswerFail : PcOracle :=
  ⟨fun _ => false, true, "answer-sdp", false, "offer-sdp",
   fun _ => false, fun _ => false⟩

/-- An oracle on which createOffer fails. -/
def oracleOfferFail : PcOracle :=
  ⟨fun _ => false, false, "answer-sdp", true, "offer-sdp",
   fun _ => false, fun _ => false⟩

/-- An oracle on which applying any ICE candidate fails. -/
def oracleCandFail : PcOracle :=
  ⟨fun _ => false, false, "answer-sdp", false, "offer-sdp",
   fun _ => false, fun _ => true⟩

/-- An oracle on which setting any local description fails. -/
def oracleLocalFail : PcOracle :=
  ⟨fun _ => false, false, "answer-sdp", false, "offer-sdp",
   fun _ => true, fun _ => false⟩

/-- A concrete idle client state on call c1. -/
def st0 : ClientState :=
  ⟨"me1", "alice", "c1", false, false, false, [], []⟩

/-- A concrete state whose peer username was never learned. -/
def stNoPeer : ClientState :=
  ⟨"me1", "", "c1", false, false, false, [], []⟩

/-- A concrete state with a live peer connection and remote-ready set. -/
def stLive : ClientState :=
  ⟨"me1", "alice", "c1", true, false, true, [], []⟩

/-- A concrete incoming-call notification carrying callId c9. -/
def notifEx : NotifMsg :=
  ⟨"INCOMING_CALL", some "c9", none, some "bob", none⟩

/-! ## Helper lemmas (per-handler closed forms) -/

/-- Closed form of `onSignal` on a matching OFFER when the primitive
negotiation operations succeed. -/
theorem onSignal_offer_success (o : PcOracle) (st : ClientState)
    (cid f t sdp : String) (hcid : cid = st.callId)
    (hr : o.remoteFails sdp = false) (ha : o.createAnswerFails = false)
    (hl : o.localFails o.answerSdp = false) :
    onSignal o st (some (SigMsg.offer cid f t sdp)) =
      ⟨{ st with
         pcPresent := true
         hasRemote := true
         pendingIce := []
         log := st.log ++ drainLoop o st.pendingIce
            ++ [if st.peerUsername = "" then
                  "Cannot reply with ANSWER because peer username is unknown."
                else "ANSWER sent"] },
        (if st.pcPresent then [] else [PcOp.newPc])
          ++ ([PcOp.setRemoteDescription sdp]
          ++ (st.pendingIce.map PcOp.addIceCandidate)
          ++ [PcOp.createAnswer, PcOp.setLocalDescription o.answerSdp]),
        (if st.peerUsername = "" then []
         else [Publish.answerMsg st.callId st.me st.peerUsername o.answerSdp]),
        false⟩ := by
  subst hcid
  cases st with
  | mk me pu cid pc dc hrem pend lg =>
    by_cases hpc : pc = true <;> by_cases hpu : pu = "" <;>
      simp [onSignal, ensurePc, drainIce, logLine, SigMsg.callId, hr, ha, hl, hpc, hpu]

/-- Closed form of `onSignal` on a matching ANSWER when setting the remote
description succeeds. -/
theorem onSignal_answer_success (o : PcOracle) (st : ClientState)
    (cid f t sdp : String) (hcid : cid = st.callId)
    (hr : o.remoteFails sdp = false) :
    onSignal o st (some (SigMsg.answer cid f t sdp)) =
      ⟨{ st with
         pcPresent := true
         hasRemote := true
         pendingIce := []
         log := st.log ++ drainLoop o st.pendingIce ++ ["ANSWER set"] },
        (if st.pcPresent then [] else [PcOp.newPc])
          ++ ([PcOp.setRemoteDescription sdp]
          ++ (st.pendingIce.map PcOp.addIceCandidate)),
        [], false⟩ := by
  subst hcid
  cases st with
  | mk me pu cid pc dc hrem pend lg =>
    by_cases hpc : pc = true <;>
      simp [onSignal, ensurePc, drainIce, logLine, SigMsg.callId, hr, hpc]

/-- Closed form of `onSignal` on a matching ICE_CANDIDATE received before
remote-ready: the candidate is buffered, no primitive operation beyond
(possibly) creating the peer connection. -/
theorem onSignal_ice_buffered (o : PcOracle) (st : ClientState)
    (cid f t c : String) (hcid : cid = st.callId)
    (hrem : st.hasRemote = false) :
    onSignal o st (some (SigMsg.iceCandidate cid f t c)) =
      ⟨{ st with pcPresent := true, pendingIce := st.pendingIce ++ [c] },
        (if st.pcPresent then [] else [PcOp.newPc]), [], false⟩ := by
  subst hcid
  cases st with
  | mk me pu cid pc dc hrem' pend lg =>
    cases hrem
    by_cases hpc : pc = true <;>
      simp [onSignal, ensurePc, SigMsg.callId, hpc]

/-- Closed form of `onSignal` on a matching ICE_CANDIDATE received after
remote-ready: the candidate is applied immediately; a failure is logged
and swallowed. -/
theorem onSignal_ice_applied (o : PcOracle) (st : ClientState)
    (cid f t c : String) (hcid : cid = st.callId)
    (hpc : st.pcPresent = true) (hrem : st.hasRemote = true) :
    onSignal o st (some (SigMsg.iceCandidate cid f t c)) =
      ⟨(if o.candidateFails c then logLine st ("addIce error " ++ c) else st),
        [PcOp.addIceCandidate c], [], false⟩ := by
  subst hcid
  cases st with
  | mk me pu cid pc dc hrem' pend lg =>
    cases hrem
    cases hpc
    by_cases hf : o.candidateFails c = true <;>
      simp [onSignal, ensurePc, SigMsg.callId, hf]

/-- `runSignals` distributes over list concatenation. -/
theorem runSignals_append (o : PcOracle) (st : ClientState) (xs ys : List SigMsg) :
    runSignals o st (xs ++ ys) =
      ((runSignals o (runSignals o st xs).1 ys).1,
       (runSignals o st xs).2.1 ++ (runSignals o (runSignals o st xs).1 ys).2.1,
       (runSignals o st xs).2.2 ++ (runSignals o (runSignals o st xs).1 ys).2.2) := by
  induction xs generalizing st with
  | nil => simp [runSignals]
  | cons m ms ih => simp [runSignals, ih, List.append_assoc]

/-- Processing a run of ICE_CANDIDATE messages before remote-ready only
appends the candidates to the buffer (in order), creating the peer
connection on the first one if needed; nothing is applied or published. -/
theorem runSignals_buffer (o : PcOracle) (f t cid : String) (cs : List String) :
    ∀ st : ClientState, cid = st.callId → st.pcPresent = true →
      st.hasRemote = false →
    runSignals o st (iceList cid f t cs) =
      ({ st with pendingIce := st.pendingIce ++ cs }, [], []) := by
  induction cs with
  | nil => intro st hcid h1 h2; simp [iceList, runSignals]
  | cons c cs ih =>
    intro st hcid h1 h2
    subst hcid
    have hstep := onSignal_ice_buffered o st st.callId f t c rfl h2
    rw [h1] at hstep
    simp only [iceList, List.map_cons, runSignals, hstep, if_true]
    have := ih { st with pendingIce := st.pendingIce ++ [c], pcPresent := true }
      (by simp) (by simp) (by simpa using h2)
    simp only [iceList] at this
    simp only [this]
    simp [List.append_assoc, h1]

/-- Processing a run of ICE_CANDIDATE messages after remote-ready applies
each candidate immediately, in order, and publishes nothing; failures only
add log lines. -/
theorem runSignals_applied (o : PcOracle) (f t cid : String) (ds : List String) :
    ∀ st : ClientState, cid = st.callId → st.pcPresent = true →
      st.hasRemote = true →
    (runSignals o st (iceList cid f t ds)).2.1 = ds.map PcOp.addIceCandidate
      ∧ (runSignals o st (iceList cid f t ds)).2.2 = [] := by
  induction ds with
  | nil => intro st hcid h1 h2; simp [iceList, runSignals]
  | cons d ds ih =>
    intro st hcid h1 h2
    subst hcid
    have hstep := onSignal_ice_applied o st st.callId f t d rfl h1 h2
    simp only [iceList, List.map_cons, runSignals, hstep]
    cases hf : o.candidateFails d with
    | true =>
      have h3 := ih (logLine st ("addIce error " ++ d))
        (by simp [logLine]) (by simp [logLine, h1]) (by simp [logLine, h2])
      simp only [iceList] at h3
      simp [hf, h3.1, h3.2]
    | false =>
      have h3 := ih st rfl h1 h2
      simp only [iceList] at h3
      simp [hf, h3.1, h3.2]

/-- Claim C2: every ICE_CANDIDATE received before the first remote
description is buffered and then applied in exactly the order received,
immediately after the remote description is set — whether it arrives in
an OFFER (callee side, first conjunct) or in an ANSWER (caller side,
second conjunct) — and before any candidate received after the drain. -/
theorem ice_candidates_drained_fifo (o : PcOracle) (st : ClientState)
    (cs ds : List String) (f t f2 t2 f3 t3 sdp : String)
    (hpc : st.pcPresent = false) (hrem : st.hasRemote = false)
    (hbuf : st.pendingIce = [])
    (hr : o.remoteFails sdp = false) (ha : o.createAnswerFails = false)
    (hl : o.localFails o.answerSdp = false) :
    (runSignals o st
        (iceList st.callId f t cs
          ++ SigMsg.offer st.callId f2 t2 sdp :: iceList st.callId f3 t3 ds)).2.1
      = [PcOp.newPc, PcOp.setRemoteDescription sdp]
          ++ cs.map PcOp.addIceCandidate
          ++ [PcOp.createAnswer, PcOp.setLocalDescription o.answerSdp]
          ++ ds.map PcOp.addIceCandidate
    ∧ (runSignals o st
        (iceList st.callId f t cs
          ++ SigMsg.answer st.callId f2 t2 sdp :: iceList st.callId f3 t3 ds)).2.1
      = [PcOp.newPc, PcOp.setRemoteDescription sdp]
          ++ cs.map PcOp.addIceCandidate
          ++ ds.map PcOp.addIceCandidate := by
  constructor
  · cases cs with
    | nil =>
      have hoff := onSignal_offer_success o st st.callId f2 t2 sdp rfl hr ha hl
      have happ := runSignals_applied o f3 t3 st.callId ds
        (onSignal o st (some (SigMsg.offer st.callId f2 t2 sdp))).state
        (by rw [hoff]) (by rw [hoff]) (by rw [hoff])
      simp only [iceList] at happ ⊢
      simp only [List.map_nil, List.nil_append, runSignals]
      rw [happ.1, hoff]
      simp [hpc, hbuf, drainLoop]
    | cons c cs' =>
      have h1 := onSignal_ice_buffered o st st.callId f t c rfl hrem
      have hbuf2 := runSignals_buffer o f t st.callId cs'
        (onSignal o st (some (SigMsg.iceCandidate st.callId f t c))).state
        (by rw [h1]) (by rw [h1])
        (by rw [h1]; simpa using hrem)
      have hoff := onSignal_offer_success o
        (runSignals o (onSignal o st (some (SigMsg.iceCandidate st.callId f t c))).state
          (iceList st.callId f t cs')).1
        st.callId f2 t2 sdp
        (by rw [hbuf2, h1]) hr ha hl
      have happ := runSignals_applied o f3 t3 st.callId ds
        (onSignal o
          (runSignals o (onSignal o st (some (SigMsg.iceCandidate st.callId f t c))).state
            (iceList st.callId f t cs')).1
          (some (SigMsg.offer st.callId f2 t2 sdp))).state
        (by rw [hoff, hbuf2, h1]) (by rw [hoff]) (by rw [hoff])
      simp only [iceList] at hbuf2 hoff happ ⊢
      simp only [List.map_cons, List.cons_append, runSignals, List.append_eq]
      rw [runSignals_append]
      simp only [runSignals]
      simp only [happ.1]
      simp only [hoff]
      simp only [hbuf2]
      simp only [h1]
      simp [hpc, hbuf, drainLoop, List.append_assoc]
  · cases cs with
    | nil =>
      have hans := onSignal_answer_success o st st.callId f2 t2 sdp rfl hr
      have happ := runSignals_applied o f3 t3 st.callId ds
        (onSignal o st (some (SigMsg.answer st.callId f2 t2 sdp))).state
        (by rw [hans]) (by rw [hans]) (by rw [hans])
      simp only [iceList] at happ ⊢
      simp only [List.map_nil, List.nil_append, runSignals]
      rw [happ.1, hans]
      simp [hpc, hbuf, drainLoop]
    | cons c cs' =>
      have h1 := onSignal_ice_buffered o st st.callId f t c rfl hrem
      have hbuf2 := runSignals_buffer o f t st.callId cs'
        (onSignal o st (some (SigMsg.iceCandidate st.callId f t c))).state
        (by rw [h1]) (by rw [h1])
        (by rw [h1]; simpa using hrem)
      have hans := onSignal_answer_success o
        (runSignals o (onSignal o st (some (SigMsg.iceCandidate st.callId f t c))).state
          (iceList st.callId f t cs')).1
        st.callId f2 t2 sdp
        (by rw [hbuf2, h1]) hr
      have happ := runSignals_applied o f3 t3 st.callId ds
        (onSignal o
          (runSignals o (onSignal o st (some (SigMsg.iceCandidate st.callId f t c))).state
            (iceList st.callId f t cs')).1
          (some (SigMsg.answer st.callId f2 t2 sdp))).state
        (by rw [hans, hbuf2, h1]) (by rw [hans]) (by rw [hans])
      simp only [iceList] at hbuf2 hans happ ⊢
      simp only [List.map_cons, List.cons_append, runSignals, List.append_eq]
      rw [runSignals_append]
      simp only [runSignals]
      simp only [happ.1]
      simp only [hans]
      simp only [hbuf2]
      simp only [h1]
      simp [hpc, hbuf, drainLoop, List.append_assoc]

/-- Closed form of `onSignal` on a matching OFFER when setting the remote
description fails: the handler aborts after the failed attempt. -/
theorem onSignal_offer_remoteFail (o : PcOracle) (st : ClientState)
    (cid f t sdp : String) (hcid : cid = st.callId)
    (hr : o.remoteFails sdp = true) :
    onSignal o st (some (SigMsg.offer cid f t sdp)) =
      ⟨{ st with pcPresent := true },
        (if st.pcPresent then [] else [PcOp.newPc])
          ++ [PcOp.setRemoteDescription sdp],
        [], true⟩ := by
  subst hcid
  cases st with
  | mk me pu cid pc dc hrem pend lg =>
    by_cases hpc : pc = true <;>
      simp [onSignal, ensurePc, SigMsg.callId, hr, hpc]

/-- Closed form of `onSignal` on a matching OFFER when creating the local
answer fails: the remote description was applied and the buffer drained,
then the handler aborts. -/
theorem onSignal_offer_answerFail (o : PcOracle) (st : ClientState)
    (cid f t sdp : String) (hcid : cid = st.callId)
    (hr : o.remoteFails sdp = false) (ha : o.createAnswerFails = true) :
    onSignal o st (some (SigMsg.offer cid f t sdp)) =
      ⟨{ st with
         pcPresent := true
         hasRemote := true
         pendingIce := []
         log := st.log ++ drainLoop o st.pendingIce },
        (if st.pcPresent then [] else [PcOp.newPc])
          ++ ([PcOp.setRemoteDescription sdp]
          ++ (st.pendingIce.map PcOp.addIceCandidate)
          ++ [PcOp.createAnswer]),
        [], true⟩ := by
  subst hcid
  cases st with
  | mk me pu cid pc dc hrem pend lg =>
    by_cases hpc : pc = true <;>
      simp [onSignal, ensurePc, drainIce, SigMsg.callId, hr, ha, hpc]

/-- Closed form of `startOffer` when creating the local offer fails: the
handler aborts after the failed attempt, publishing and logging nothing. -/
theorem startOffer_offerFail (o : PcOracle) (st : ClientState)
    (hcid : st.callId ≠ "") (hu : st.peerUsername ≠ "")
    (hf : o.createOfferFails = true) :
    startOffer o st =
      ⟨(ensurePc true st).1, (ensurePc true st).2 ++ [PcOp.createOffer],
        [], true⟩ := by
  simp [startOffer, hcid, hu, hf]

/-- Closed form of `onSignal` on a matching ANSWER when setting the remote
description fails: the handler aborts after the failed attempt, before
remote-ready is set or the buffer is drained. -/
theorem onSignal_answer_remoteFail (o : PcOracle) (st : ClientState)
    (cid f t sdp : String) (hcid : cid = st.callId)
    (hr : o.remoteFails sdp = true) :
    onSignal o st (some (SigMsg.answer cid f t sdp)) =
      ⟨{ st with pcPresent := true },
        (if st.pcPresent then [] else [PcOp.newPc])
          ++ [PcOp.setRemoteDescription sdp],
        [], true⟩ := by
  subst hcid
  cases st with
  | mk me pu cid pc dc hrem pend lg =>
    by_cases hpc : pc = true <;>
      simp [onSignal, ensurePc, SigMsg.callId, hr, hpc]

/-- Closed form of `onSignal` on a matching OFFER when applying the created
answer as local description fails: the remote description was applied and
the buffer drained, the answer created, then the handler aborts. -/
theorem onSignal_offer_localFail (o : PcOracle) (st : ClientState)
    (cid f t sdp : String) (hcid : cid = st.callId)
    (hr : o.remoteFails sdp = false) (ha : o.createAnswerFails = false)
    (hl : o.localFails o.answerSdp = true) :
    onSignal o st (some (SigMsg.offer cid f t sdp)) =
      ⟨{ st with
         pcPresent := true
         hasRemote := true
         pendingIce := []
         log := st.log ++ drainLoop o st.pendingIce },
        (if st.pcPresent then [] else [PcOp.newPc])
          ++ ([PcOp.setRemoteDescription sdp]
          ++ (st.pendingIce.map PcOp.addIceCandidate)
          ++ [PcOp.createAnswer, PcOp.setLocalDescription o.answerSdp]),
        [], true⟩ := by
  subst hcid
  cases st with
  | mk me pu cid pc dc hrem pend lg =>
    by_cases hpc : pc = true <;>
      simp [onSignal, ensurePc, drainIce, SigMsg.callId, hr, ha, hl, hpc]

/-- Closed form of `startOffer` when applying the created offer as local
description fails: the handler aborts after the failed attempt, publishing
and logging nothing. -/
theorem startOffer_localFail (o : PcOracle) (st : ClientState)
    (hcid : st.callId ≠ "") (hu : st.peerUsername ≠ "")
    (hc : o.createOfferFails = false) (hl : o.localFails o.offerSdp = true) :
    startOffer o st =
      ⟨(ensurePc true st).1,
        (ensurePc true st).2
          ++ [PcOp.createOffer, PcOp.setLocalDescription o.offerSdp],
        [], true⟩ := by
  simp [startOffer, hcid, hu, hc, hl, List.append_assoc]

/-! ## Claim theorems -/

/-- Claim C1: an inbound signal message whose callId differs from the
active session's callId is discarded: no state mutation, no
peer-connection operation, no change to the remote-ready flag or the ICE
buffer, and no outbound publish. -/
theorem mismatched_callid_no_effect (o : PcOracle) (st : ClientState)
    (p : SigMsg) (h : p.callId ≠ st.callId) :
    onSignal o st (some p) = ⟨st, [], [], false⟩ := by
  cases p <;> simp only [SigMsg.callId] at h <;> simp [onSignal, SigMsg.callId, h]

/-- Witness: a concrete OFFER for call c2 while c1 is active is a no-op. -/
theorem mismatched_callid_no_effect_witness :
    (SigMsg.offer "c2" "bob" "me1" "sdp-x").callId ≠ st0.callId ∧
      onSignal oracleOk st0 (some (SigMsg.offer "c2" "bob" "me1" "sdp-x")) =
        ⟨st0, [], [], false⟩ :=
  ⟨by decide, mismatched_callid_no_effect oracleOk st0 _ (by decide)⟩

/-- Counterexample to claim C3 as stated: when the stored peer username is
unknown (empty), processing a matching OFFER performs the negotiation
steps yet publishes no ANSWER at all. -/
theorem offer_without_peer_publishes_nothing :
    (onSignal oracleOk stNoPeer
        (some (SigMsg.offer "c1" "bob" "me1" "sdp-o"))).outs = []
      ∧ (onSignal oracleOk stNoPeer
          (some (SigMsg.offer "c1" "bob" "me1" "sdp-o"))).ops ≠ [] := by
  constructor <;> decide

/-- Claim C3 (amended): when the negotiation primitives succeed and the
stored peer username is non-empty, processing a matching OFFER performs,
in order, set-remote-description, the buffered-candidate drain, create
answer and set-local-description; marks remote-ready; empties the buffer;
and publishes exactly one ANSWER carrying that SDP for the same callId. -/
theorem offer_processing_order_and_answer (o : PcOracle) (st : ClientState)
    (f t sdp : String)
    (hr : o.remoteFails sdp = false) (ha : o.createAnswerFails = false)
    (hl : o.localFails o.answerSdp = false) (hu : st.peerUsername ≠ "") :
    (onSignal o st (some (SigMsg.offer st.callId f t sdp))).ops
      = (if st.pcPresent then [] else [PcOp.newPc])
          ++ [PcOp.setRemoteDescription sdp]
          ++ st.pendingIce.map PcOp.addIceCandidate
          ++ [PcOp.createAnswer, PcOp.setLocalDescription o.answerSdp]
      ∧ (onSignal o st (some (SigMsg.offer st.callId f t sdp))).state.hasRemote = true
      ∧ (onSignal o st (some (SigMsg.offer st.callId f t sdp))).state.pendingIce = []
      ∧ (onSignal o st (some (SigMsg.offer st.callId f t sdp))).outs
          = [Publish.answerMsg st.callId st.me st.peerUsername o.answerSdp]
      ∧ (onSignal o st (some (SigMsg.offer st.callId f t sdp))).threw = false := by
  have hoff := onSignal_offer_success o st st.callId f t sdp rfl hr ha hl
  rw [hoff]
  simp [hu, List.append_assoc]

/-- Witness: the amended C3 at a concrete state and oracle. -/
theorem offer_processing_order_and_answer_witness :
    st0.peerUsername ≠ "" ∧
      (onSignal oracleOk st0 (some (SigMsg.offer st0.callId "bob" "me1" "sdp-o"))).outs
        = [Publish.answerMsg st0.callId st0.me st0.peerUsername oracleOk.answerSdp] :=
  ⟨by decide,
    (offer_processing_order_and_answer oracleOk st0 "bob" "me1" "sdp-o"
      rfl rfl rfl (by decide)).2.2.2.1⟩

/-- Counterexample to claim C4 as stated: the ANSWER replying to an OFFER
whose fromUserId is bob is addressed to the stored peer username alice. -/
theorem answer_not_addressed_to_offer_sender :
    (onSignal oracleOk st0 (some (SigMsg.offer "c1" "bob" "me1" "sdp-o"))).outs
      = [Publish.answerMsg "c1" "me1" "alice" "answer-sdp"]
      ∧ "alice" ≠ "bob" := by
  constructor <;> decide

/-- Claim C4 (amended): the published ANSWER is addressed (toUserId) to
the locally stored peer username, irrespective of the fromUserId carried
by the inbound OFFER. -/
theorem answer_addressed_to_stored_peer (o : PcOracle) (st : ClientState)
    (f t sdp : String)
    (hr : o.remoteFails sdp = false) (ha : o.createAnswerFails = false)
    (hl : o.localFails o.answerSdp = false) (hu : st.peerUsername ≠ "") :
    (onSignal o st (some (SigMsg.offer st.callId f t sdp))).outs
      = [Publish.answerMsg st.callId st.me st.peerUsername o.answerSdp] := by
  have hoff := onSignal_offer_success o st st.callId f t sdp rfl hr ha hl
  rw [hoff]
  simp [hu]

/-- Witness: the amended C4 at a concrete state and oracle, with an OFFER
sender different from the stored peer. -/
theorem answer_addressed_to_stored_peer_witness :
    st0.peerUsername ≠ "" ∧
      (onSignal oracleOk st0 (some (SigMsg.offer st0.callId "carol" "me1" "sdp-o"))).outs
        = [Publish.answerMsg st0.callId st0.me st0.peerUsername oracleOk.answerSdp] :=
  ⟨by decide,
    answer_addressed_to_stored_peer oracleOk st0 "carol" "me1" "sdp-o"
      rfl rfl rfl (by decide)⟩

/-- Witness: the C2 FIFO-drain theorem at three buffered candidates and
one post-drain candidate, for both the OFFER- and the ANSWER-triggered
drain. -/
theorem ice_candidates_drained_fifo_witness :
    st0.pcPresent = false ∧ st0.hasRemote = false ∧ st0.pendingIce = [] ∧
      ((runSignals oracleOk st0
          (iceList st0.callId "bob" "me1" ["i1", "i2", "i3"]
            ++ SigMsg.offer st0.callId "bob" "me1" "sdp-o"
              :: iceList st0.callId "bob" "me1" ["i4"])).2.1
        = [PcOp.newPc, PcOp.setRemoteDescription "sdp-o"]
            ++ (["i1", "i2", "i3"].map PcOp.addIceCandidate)
            ++ [PcOp.createAnswer, PcOp.setLocalDescription oracleOk.answerSdp]
            ++ (["i4"].map PcOp.addIceCandidate)
      ∧ (runSignals oracleOk st0
          (iceList st0.callId "bob" "me1" ["i1", "i2", "i3"]
            ++ SigMsg.answer st0.callId "bob" "me1" "sdp-o"
              :: iceList st0.callId "bob" "me1" ["i4"])).2.1
        = [PcOp.newPc, PcOp.setRemoteDescription "sdp-o"]
            ++ (["i1", "i2", "i3"].map PcOp.addIceCandidate)
            ++ (["i4"].map PcOp.addIceCandidate)) :=
  ⟨rfl, rfl, rfl,
    ice_candidates_drained_fifo oracleOk st0 ["i1", "i2", "i3"] ["i4"]
      "bob" "me1" "bob" "me1" "bob" "me1" "sdp-o" rfl rfl rfl rfl rfl rfl⟩

/-- Claim C5: end and the peer-session teardown are idempotent: the second
invocation reproduces the same torn-down state and performs no close
side effect; close operations happen at most once; the ICE buffer is left
cleared both times. -/
theorem end_teardown_idempotent (st : ClientState) :
    (endCall (endCall st).state).state = (endCall st).state
      ∧ (endCall (endCall st).state).ops = []
      ∧ (endCall st).state.pendingIce = []
      ∧ (endCall (endCall st).state).state.pendingIce = []
      ∧ (endCall st).ops.count PcOp.closePc ≤ 1
      ∧ (endCall st).ops.count PcOp.closeDataChannel ≤ 1
      ∧ (teardownPc (teardownPc st).1).2 = [] := by
  cases st with
  | mk me pu cid pc dc hrem pend lg =>
    by_cases hpc : pc = true <;> by_cases hdc : dc = true <;>
      simp [endCall, teardownPc, hpc, hdc]

/-- Claim C6: a candidate whose application fails is logged and swallowed:
the handler does not throw, the attempt is recorded, the state changes
only by the log line, nothing is published or closed; a drain attempts
every buffered candidate regardless of individual failures and empties
the buffer; and an ANSWER whose drain contains failing candidates still
completes without throwing. -/
theorem candidate_failures_swallowed (o : PcOracle) (st : ClientState)
    (f t c sdp : String)
    (hpc : st.pcPresent = true) (hrem : st.hasRemote = true)
    (hf : o.candidateFails c = true) (hr : o.remoteFails sdp = false) :
    (onSignal o st (some (SigMsg.iceCandidate st.callId f t c))).threw = false
      ∧ (onSignal o st (some (SigMsg.iceCandidate st.callId f t c))).ops
          = [PcOp.addIceCandidate c]
      ∧ (onSignal o st (some (SigMsg.iceCandidate st.callId f t c))).state
          = logLine st ("addIce error " ++ c)
      ∧ (onSignal o st (some (SigMsg.iceCandidate st.callId f t c))).outs = []
      ∧ (drainIce o st).2 = st.pendingIce.map PcOp.addIceCandidate
      ∧ (drainIce o st).1.pendingIce = []
      ∧ (onSignal o st (some (SigMsg.answer st.callId f t sdp))).threw = false := by
  have hice := onSignal_ice_applied o st st.callId f t c rfl hpc hrem
  have hans := onSignal_answer_success o st st.callId f t sdp rfl hr
  rw [hice, hans]
  simp [hf, drainIce]

/-- Witness: the C6 theorem at a concrete failing candidate. -/
theorem candidate_failures_swallowed_witness :
    stLive.pcPresent = true ∧ stLive.hasRemote = true ∧
      oracleCandFail.candidateFails "i9" = true ∧
      (onSignal oracleCandFail stLive
          (some (SigMsg.iceCandidate stLive.callId "bob" "me1" "i9"))).threw = false :=
  ⟨rfl, rfl, rfl,
    (candidate_failures_swallowed oracleCandFail stLive "bob" "me1" "i9" "sdp-a"
      rfl rfl rfl rfl).1⟩

/-- Counterexample to claim C7 as stated: accept invoked right after end
still publishes a call.accept message, instead of failing with no
outbound message. -/
theorem accept_after_end_still_publishes :
    (accept (endCall st0).state).2 = [Publish.callAccept "c1"]
      ∧ (accept (endCall st0).state).2 ≠ ([] : List Publish) := by
  constructor <;> decide

/-- Claim C7 (amended): the client performs no lifecycle-status validation
at all: accept unconditionally publishes exactly one call.accept carrying
the current callId and leaves the state untouched, including immediately
after end; no InvalidTransition condition exists in the client. -/
theorem accept_has_no_validation (st : ClientState) :
    accept st = (st, [Publish.callAccept st.callId])
      ∧ (accept (endCall st).state).2 = [Publish.callAccept st.callId]
      ∧ (accept (endCall st).state).1 = (endCall st).state := by
  refine ⟨rfl, ?_, rfl⟩
  simp [accept, endCall, teardownPc]

/-- Counterexample to claim C8 as stated: when setting the remote
description fails, nothing is logged — the handler aborts with an
uncaught rejection and the log pane is unchanged. -/
theorem negotiation_failure_not_logged :
    (onSignal oracleRemoteFail st0
        (some (SigMsg.offer "c1" "bob" "me1" "sdp-o"))).threw = true
      ∧ (onSignal oracleRemoteFail st0
          (some (SigMsg.offer "c1" "bob" "me1" "sdp-o"))).state.log = st0.log := by
  constructor <;> decide

/-- Claim C8 (amended): when setting a remote or local description or
creating an offer or answer fails — remote-set in the OFFER branch,
remote-set in the ANSWER branch, createAnswer, setLocalDescription of the
answer, createOffer, or setLocalDescription of the offer — the handler
aborts without emitting any log line and without closing anything; the
session keeps its state as of the failure (not auto-closed), so end can
still be invoked manually. -/
theorem negotiation_failure_preserves_session (o1 o2 o3 o4 o5 : PcOracle)
    (st : ClientState) (f t sdp : String)
    (h1 : o1.remoteFails sdp = true)
    (h2r : o2.remoteFails sdp = false) (h2a : o2.createAnswerFails = true)
    (hbuf : st.pendingIce = [])
    (h3o : o3.createOfferFails = true)
    (h4r : o4.remoteFails sdp = false) (h4a : o4.createAnswerFails = false)
    (h4l : o4.localFails o4.answerSdp = true)
    (h5o : o5.createOfferFails = false) (h5l : o5.localFails o5.offerSdp = true)
    (hcid : st.callId ≠ "") (hu : st.peerUsername ≠ "") :
    ((onSignal o1 st (some (SigMsg.offer st.callId f t sdp))).threw = true
      ∧ (onSignal o1 st (some (SigMsg.offer st.callId f t sdp))).outs = []
      ∧ (onSignal o1 st (some (SigMsg.offer st.callId f t sdp))).state.log = st.log
      ∧ (onSignal o1 st (some (SigMsg.offer st.callId f t sdp))).state.hasRemote
          = st.hasRemote
      ∧ (onSignal o1 st (some (SigMsg.offer st.callId f t sdp))).state.pendingIce
          = st.pendingIce
      ∧ (onSignal o1 st (some (SigMsg.offer st.callId f t sdp))).state.callId
          = st.callId
      ∧ PcOp.closePc ∉ (onSignal o1 st (some (SigMsg.offer st.callId f t sdp))).ops
      ∧ PcOp.closeDataChannel
          ∉ (onSignal o1 st (some (SigMsg.offer st.callId f t sdp))).ops)
    ∧ ((onSignal o1 st (some (SigMsg.answer st.callId f t sdp))).threw = true
      ∧ (onSignal o1 st (some (SigMsg.answer st.callId f t sdp))).outs = []
      ∧ (onSignal o1 st (some (SigMsg.answer st.callId f t sdp))).state.log = st.log
      ∧ (onSignal o1 st (some (SigMsg.answer st.callId f t sdp))).state.hasRemote
          = st.hasRemote
      ∧ (onSignal o1 st (some (SigMsg.answer st.callId f t sdp))).state.pendingIce
          = st.pendingIce
      ∧ (onSignal o1 st (some (SigMsg.answer st.callId f t sdp))).state.callId
          = st.callId
      ∧ PcOp.closePc ∉ (onSignal o1 st (some (SigMsg.answer st.callId f t sdp))).ops
      ∧ PcOp.closeDataChannel
          ∉ (onSignal o1 st (some (SigMsg.answer st.callId f t sdp))).ops)
    ∧ ((onSignal o2 st (some (SigMsg.offer st.callId f t sdp))).threw = true
      ∧ (onSignal o2 st (some (SigMsg.offer st.callId f t sdp))).outs = []
      ∧ (onSignal o2 st (some (SigMsg.offer st.callId f t sdp))).state.log = st.log
      ∧ (onSignal o2 st (some (SigMsg.offer st.callId f t sdp))).state.callId
          = st.callId
      ∧ PcOp.closePc ∉ (onSignal o2 st (some (SigMsg.offer st.callId f t sdp))).ops)
    ∧ ((onSignal o4 st (some (SigMsg.offer st.callId f t sdp))).threw = true
      ∧ (onSignal o4 st (some (SigMsg.offer st.callId f t sdp))).outs = []
      ∧ (onSignal o4 st (some (SigMsg.offer st.callId f t sdp))).state.log = st.log
      ∧ (onSignal o4 st (some (SigMsg.offer st.callId f t sdp))).state.callId
          = st.callId
      ∧ PcOp.closePc ∉ (onSignal o4 st (some (SigMsg.offer st.callId f t sdp))).ops)
    ∧ ((startOffer o3 st).threw = true
      ∧ (startOffer o3 st).outs = []
      ∧ (startOffer o3 st).state.log = st.log
      ∧ (startOffer o3 st).state.callId = st.callId
      ∧ PcOp.closePc ∉ (startOffer o3 st).ops)
    ∧ ((startOffer o5 st).threw = true
      ∧ (startOffer o5 st).outs = []
      ∧ (startOffer o5 st).state.log = st.log
      ∧ (startOffer o5 st).state.callId = st.callId
      ∧ PcOp.closePc ∉ (startOffer o5 st).ops) := by
  have ho1 := onSignal_offer_remoteFail o1 st st.callId f t sdp rfl h1
  have ho1a := onSignal_answer_remoteFail o1 st st.callId f t sdp rfl h1
  have ho2 := onSignal_offer_answerFail o2 st st.callId f t sdp rfl h2r h2a
  have ho3 := startOffer_offerFail o3 st hcid hu h3o
  have ho4 := onSignal_offer_localFail o4 st st.callId f t sdp rfl h4r h4a h4l
  have ho5 := startOffer_localFail o5 st hcid hu h5o h5l
  rw [ho1, ho1a, ho2, ho3, ho4, ho5]
  by_cases hpc : st.pcPresent = true <;>
    simp [ensurePc, hpc, hbuf, drainLoop]

/-- Witness: the amended C8 at concrete failing oracles, exercising a
remote-description failure and a local-description failure. -/
theorem negotiation_failure_preserves_session_witness :
    oracleRemoteFail.remoteFails "sdp-o" = true
      ∧ oracleAnswerFail.createAnswerFails = true
      ∧ oracleOfferFail.createOfferFails = true
      ∧ oracleLocalFail.localFails oracleLocalFail.answerSdp = true
      ∧ oracleLocalFail.localFails oracleLocalFail.offerSdp = true
      ∧ (onSignal oracleRemoteFail st0
          (some (SigMsg.offer st0.callId "bob" "me1" "sdp-o"))).threw = true
      ∧ (onSignal oracleLocalFail st0
          (some (SigMsg.offer st0.callId "bob" "me1" "sdp-o"))).threw = true :=
  ⟨rfl, rfl, rfl, rfl, rfl,
    (negotiation_failure_preserves_session oracleRemoteFail oracleAnswerFail
      oracleOfferFail oracleLocalFail oracleLocalFail st0 "bob" "me1" "sdp-o"
      rfl rfl rfl rfl rfl rfl rfl rfl rfl rfl
      (by decide) (by decide)).1.1,
    (negotiation_failure_preserves_session oracleRemoteFail oracleAnswerFail
      oracleOfferFail oracleLocalFail oracleLocalFail st0 "bob" "me1" "sdp-o"
      rfl rfl rfl rfl rfl rfl rfl rfl rfl rfl
      (by decide) (by decide)).2.2.2.1.1⟩

/-- Claim C9: an absent or invalid-JSON frame body parses to null and both
subscription handlers discard it: no state mutation, no publish, no
primitive operation, no throw. -/
theorem invalid_body_discarded (o : PcOracle) (st : ClientState)
    (parseS : String → Option SigMsg) (parseN : String → Option NotifMsg)
    (body : Option String)
    (hb : body = none
      ∨ ∃ s, body = some s ∧ parseS s = none ∧ parseN s = none) :
    safeParse parseS body = none
      ∧ safeParse parseN body = none
      ∧ onSignalWire parseS o st body = ⟨st, [], [], false⟩
      ∧ onCallNotifWire parseN st body = st := by
  have hs : safeParse parseS body = none := by
    rcases hb with h | ⟨s, hb, hps, hpn⟩
    · simp [safeParse, h]
    · subst hb
      by_cases he : s = "" <;> simp [safeParse, he, hps]
  have hn : safeParse parseN body = none := by
    rcases hb with h | ⟨s, hb, hps, hpn⟩
    · simp [safeParse, h]
    · subst hb
      by_cases he : s = "" <;> simp [safeParse, he, hpn]
  exact ⟨hs, hn, by simp [onSignalWire, hs, onSignal],
    by simp [onCallNotifWire, hn, onCallNotif]⟩

/-- Witness: the C9 theorem at a parse that rejects the body. -/
theorem invalid_body_discarded_witness :
    ((some "this is (not) valid JSON" : Option String) = none
      ∨ ∃ s, (some "this is (not) valid JSON" : Option String) = some s
          ∧ (fun _ => (none : Option SigMsg)) s = none
          ∧ (fun _ => (none : Option NotifMsg)) s = none)
      ∧ onSignalWire (fun _ => none) oracleOk st0 (some "this is (not) valid JSON")
          = ⟨st0, [], [], false⟩ :=
  ⟨Or.inr ⟨"this is (not) valid JSON", rfl, rfl, rfl⟩,
    (invalid_body_discarded oracleOk st0 (fun _ => none) (fun _ => none)
      (some "this is (not) valid JSON")
      (Or.inr ⟨"this is (not) valid JSON", rfl, rfl, rfl⟩)).2.2.1⟩

/-- Claim C10: a parsed call notification carrying a truthy callId
overwrites the active callId with it, regardless of the current state. -/
theorem notif_overwrites_callid (st : ClientState) (p : NotifMsg) (c : String)
    (hc : p.callId = some c) (hne : c ≠ "") :
    (onCallNotif st (some p)).callId = c := by
  cases p with
  | mk ty cid op cl rc =>
    simp only at hc
    subst hc
    simp only [onCallNotif, logLine, hne]
    simp only [ne_eq, hne, not_false_iff, if_true]
    split <;> (try split) <;> simp

/-- Witness: the C10 theorem at a concrete notification over state st0. -/
theorem notif_overwrites_callid_witness :
    notifEx.callId = some "c9" ∧ "c9" ≠ "" ∧
      (onCallNotif st0 (some notifEx)).callId = "c9" :=
  ⟨rfl, by decide, notif_overwrites_callid st0 notifEx "c9" rfl (by decide)⟩
